import Mathlib

/-!
Shallow embedding of the `l_vrc_console` terminal dashboard core
(`src/ui/components/usage_gauge.rs`, `src/ui/viewer.rs`,
`src/ui/views/cpu_cores.rs`, `src/ui/views/system_monitor.rs`).

Numeric model: Rust `f64` percentages are modelled as `ℚ`; the only
floating-point operations the embedded code performs on them are
`clamp`, comparisons, division and the `as u32` cast (truncation toward
zero, saturating), all of which agree with their rational counterparts
on the finite in-range values involved. Machine integers (`u64` tick
millis) are `ℕ` with explicit wrap-around where the source could wrap.
-/

namespace LVrcConsole

/-- `HISTORY_SIZE` from usage_gauge.rs: 60 data points. -/
def HISTORY_SIZE : Nat := 60

/-- The subset of ratatui `Color` values the widgets use. -/
inductive Color where
  | green
  | yellow
  | red
  deriving DecidableEq

/-- Rust `percent.clamp(0.0, 100.0)` on the rational model. -/
def rclamp (q : ℚ) : ℚ := max 0 (min q 100)

/-- Rust `as u32` cast of a finite `f64`: truncate toward zero, saturate
to `[0, u32::MAX]`. On nonnegative inputs this is the floor. -/
def f64_as_u32 (q : ℚ) : ℕ := min (Int.toNat ⌊q⌋) 4294967295

/-- The severity match `0..=50 => Green, 51..=75 => Yellow, _ => Red`
shared by `UsageGauge::set_usage`, `UsageGraph::push`, `CoreGraph::color`. -/
def severity_color (n : ℕ) : Color :=
  if n ≤ 50 then Color.green else if n ≤ 75 then Color.yellow else Color.red

/-- `UsageGauge` (usage_gauge.rs lines 13–17). -/
structure UsageGauge where
  title : String
  usage_percent : ℚ
  color : Color
  deriving DecidableEq

/-- `UsageGauge::new`. -/
def UsageGauge.new (title : String) : UsageGauge :=
  { title := title, usage_percent := 0, color := Color.green }

/-- `UsageGauge::set_usage` (lines 29–37). -/
def UsageGauge.set_usage (g : UsageGauge) (percent : ℚ) : UsageGauge :=
  let p := rclamp percent
  { g with usage_percent := p, color := severity_color (f64_as_u32 p) }

/-- `UsageGauge::get_usage`. -/
def UsageGauge.get_usage (g : UsageGauge) : ℚ := g.usage_percent

/-- `UsageGauge::get_color`. -/
def UsageGauge.get_color (g : UsageGauge) : Color := g.color

/-- `UsageGraph` (lines 64–69). -/
structure UsageGraph where
  title : String
  history : List ℚ
  color : Color
  initialized : Bool
  deriving DecidableEq

/-- `UsageGraph::new`: history = `vec![0.0; HISTORY_SIZE]`, not initialized. -/
def UsageGraph.new (title : String) : UsageGraph :=
  { title := title, history := List.replicate HISTORY_SIZE 0,
    color := Color.green, initialized := false }

/-- `UsageGraph::push` (lines 82–100): on the first push the whole history
is re-seeded with the clamped value; afterwards `remove(0)` + `push`. -/
def UsageGraph.push (g : UsageGraph) (percent : ℚ) : UsageGraph :=
  let clamped := rclamp percent
  let g' :=
    if !g.initialized then
      { g with history := List.replicate HISTORY_SIZE clamped, initialized := true }
    else
      { g with history := g.history.tail ++ [clamped] }
  { g' with color := severity_color (f64_as_u32 clamped) }

/-- `UsageGraph::get_current`: `*self.history.last().unwrap_or(&0.0)`. -/
def UsageGraph.get_current (g : UsageGraph) : ℚ := g.history.getLast?.getD 0

/-- `CoreGraph` (lines 299–302): per-core history, no `initialized` flag. -/
structure CoreGraph where
  title : String
  history : List ℚ
  deriving DecidableEq

/-- `CoreGraph::new`. -/
def CoreGraph.new (title : String) : CoreGraph :=
  { title := title, history := List.replicate HISTORY_SIZE 0 }

/-- `CoreGraph::push` (lines 313–316): `remove(0)` then push the clamp. -/
def CoreGraph.push (g : CoreGraph) (percent : ℚ) : CoreGraph :=
  { g with history := g.history.tail ++ [rclamp percent] }

/-- `CoreGraph::current`. -/
def CoreGraph.current (g : CoreGraph) : ℚ := g.history.getLast?.getD 0

/-- `CoreGraph::color` (lines 322–328): severity of the current value. -/
def CoreGraph.color (g : CoreGraph) : Color :=
  severity_color (f64_as_u32 g.current)

/-- `CpuGraph` (lines 151–153): wraps a `UsageGraph` titled "CPU". -/
structure CpuGraph where
  graph : UsageGraph
  deriving DecidableEq

def CpuGraph.new : CpuGraph := { graph := UsageGraph.new "CPU" }

def CpuGraph.push (c : CpuGraph) (percent : ℚ) : CpuGraph :=
  { c with graph := c.graph.push percent }

/-- `GpuGraph` (lines 178–181): utilization + VRAM graphs. -/
structure GpuGraph where
  graph : UsageGraph
  vram_graph : UsageGraph
  deriving DecidableEq

def GpuGraph.new : GpuGraph :=
  { graph := UsageGraph.new "GPU", vram_graph := UsageGraph.new "VRAM" }

def GpuGraph.push (g : GpuGraph) (percent : ℚ) : GpuGraph :=
  { g with graph := g.graph.push percent }

def GpuGraph.push_vram (g : GpuGraph) (percent : ℚ) : GpuGraph :=
  { g with vram_graph := g.vram_graph.push percent }

/-- `MemoryGraph` (lines 215–219). -/
structure MemoryGraph where
  graph : UsageGraph
  used_gb : ℚ
  total_gb : ℚ
  deriving DecidableEq

def MemoryGraph.new : MemoryGraph :=
  { graph := UsageGraph.new "Memory", used_gb := 0, total_gb := 0 }

/-- `MemoryGraph::push` (lines 230–239): byte counts are converted to GB
for the label; the percentage is `used/total*100` guarded by `total > 0`. -/
def MemoryGraph.push (m : MemoryGraph) (used_bytes total_bytes : ℕ) : MemoryGraph :=
  let used_gb := (used_bytes : ℚ) / 1024 / 1024 / 1024
  let total_gb := (total_bytes : ℚ) / 1024 / 1024 / 1024
  let percent : ℚ :=
    if total_bytes > 0 then ((used_bytes : ℚ) / (total_bytes : ℚ)) * 100 else 0
  { graph := m.graph.push percent, used_gb := used_gb, total_gb := total_gb }

/-- `MemoryGauge` (lines 452–456). -/
structure MemoryGauge where
  gauge : UsageGauge
  used_gb : ℚ
  total_gb : ℚ
  deriving DecidableEq

def MemoryGauge.new : MemoryGauge :=
  { gauge := UsageGauge.new "Memory", used_gb := 0, total_gb := 0 }

/-- `MemoryGauge::set_usage` (lines 467–476): same zero-total guard. -/
def MemoryGauge.set_usage (m : MemoryGauge) (used_bytes total_bytes : ℕ) : MemoryGauge :=
  let used_gb := (used_bytes : ℚ) / 1024 / 1024 / 1024
  let total_gb := (total_bytes : ℚ) / 1024 / 1024 / 1024
  let percent : ℚ :=
    if total_bytes > 0 then ((used_bytes : ℚ) / (total_bytes : ℚ)) * 100 else 0
  { gauge := m.gauge.set_usage percent, used_gb := used_gb, total_gb := total_gb }

/-- The crossterm key codes the app distinguishes (viewer.rs / cpu_cores.rs);
`other` stands for every remaining `KeyCode` variant. -/
inductive KeyCode where
  | char (c : Char)
  | esc
  | tab
  | backTab
  | left
  | right
  | other
  deriving DecidableEq

/-- `CpuCoresView` state relevant to its behavior (cpu_cores.rs lines 12–16):
one `CoreGraph` per logical core plus the gauge/graph mode flag. -/
structure CpuCoresView where
  cores : List CoreGraph
  show_graph : Bool
  deriving DecidableEq

/-- `CpuCoresView::new` for a host with `core_count` logical cores. -/
def CpuCoresView.new (core_count : ℕ) : CpuCoresView :=
  { cores := (List.range core_count).map fun i => CoreGraph.new ("Core " ++ toString i),
    show_graph := false }

/-- `CpuCoresView::toggle_mode` (lines 122–124). -/
def CpuCoresView.toggle_mode (v : CpuCoresView) : CpuCoresView :=
  { v with show_graph := !v.show_graph }

/-- `CpuCoresView::handle_key` (lines 159–167): consumes `g`/`G`. -/
def CpuCoresView.handle_key (v : CpuCoresView) (key : KeyCode) : CpuCoresView × Bool :=
  match key with
  | KeyCode.char c =>
      if c = 'g' ∨ c = 'G' then (v.toggle_mode, true) else (v, false)
  | _ => (v, false)

/-- `App` (viewer.rs lines 25–34), generic over the view state type behind
the `dyn TickingViewTrait` objects. -/
structure App (V : Type) where
  current_view : ℕ
  ticking_views : List V
  should_quit : Bool
  needs_clear : Bool

/-- `App::next_view` (lines 112–117). -/
def App.next_view {V : Type} (app : App V) : App V :=
  if app.ticking_views.isEmpty then app
  else
    { app with
      current_view := (app.current_view + 1) % app.ticking_views.length,
      needs_clear := true }

/-- `App::prev_view` (lines 120–129). -/
def App.prev_view {V : Type} (app : App V) : App V :=
  if app.ticking_views.isEmpty then app
  else
    { app with
      current_view :=
        if app.current_view = 0 then app.ticking_views.length - 1
        else app.current_view - 1,
      needs_clear := true }

/-- `App::draw` (lines 139–145): the view that gets rendered, if any. -/
def App.draw {V : Type} (app : App V) : Option V :=
  app.ticking_views.get? app.current_view

/-- `App::on_tick` (lines 148–153): tick only the current view.
`tick` is the dynamic dispatch to the view's `on_tick`. -/
def App.on_tick {V : Type} (tick : V → V) (app : App V) : App V :=
  match app.ticking_views.get? app.current_view with
  | some v =>
      { app with ticking_views := app.ticking_views.set app.current_view (tick v) }
  | none => app

/-- The global key bindings of `App::handle_key` (lines 164–170). -/
def App.global_key {V : Type} (app : App V) (key : KeyCode) : App V :=
  match key with
  | KeyCode.char c => if c = 'q' then { app with should_quit := true } else app
  | KeyCode.esc => { app with should_quit := true }
  | KeyCode.tab => app.next_view
  | KeyCode.right => app.next_view
  | KeyCode.backTab => app.prev_view
  | KeyCode.left => app.prev_view
  | KeyCode.other => app

/-- `App::handle_key` (lines 156–171): the current view gets first refusal
(`hk` is the dynamic dispatch to the view's `handle_key`, which may mutate
the view); only if it returns false do the global bindings run. -/
def App.handle_key {V : Type} (hk : V → KeyCode → V × Bool)
    (app : App V) (key : KeyCode) : App V :=
  match app.ticking_views.get? app.current_view with
  | some v =>
      let res := hk v key
      let app' := { app with ticking_views := app.ticking_views.set app.current_view res.1 }
      if res.2 then app' else app'.global_key key
  | none => app.global_key key

/-- Per-tick NVML device query results (system_monitor.rs lines 51–59):
`utilization_rates()` and `memory_info()` each fallible. -/
structure GpuReadings where
  util : Option ℚ
  memory_info : Option (ℕ × ℕ)

/-- `SystemMonitorView` (system_monitor.rs lines 11–17); `nvml` records
whether `Nvml::init()` succeeded. -/
structure SystemMonitorView where
  cpu_graph : CpuGraph
  gpu_graph : GpuGraph
  memory_graph : MemoryGraph
  nvml : Bool

/-- `SystemMonitorView::new` on a host where NVML init gave `nvml_ok`. -/
def SystemMonitorView.new (nvml_ok : Bool) : SystemMonitorView :=
  { cpu_graph := CpuGraph.new, gpu_graph := GpuGraph.new,
    memory_graph := MemoryGraph.new, nvml := nvml_ok }

/-- `SystemMonitorView::refresh` (lines 37–62), with the sysinfo/NVML reads
passed in: CPU and memory are always pushed; the GPU block runs only when
NVML is present and `device_by_index(0)` succeeded (`device = some r`),
and each of the two queries pushes only on its own success. -/
def SystemMonitorView.refresh (v : SystemMonitorView) (cpu_usage : ℚ)
    (used_memory total_memory : ℕ) (device : Option GpuReadings) : SystemMonitorView :=
  let v1 := { v with cpu_graph := v.cpu_graph.push cpu_usage }
  let v2 := { v1 with memory_graph := v1.memory_graph.push used_memory total_memory }
  if v2.nvml then
    match device with
    | some r =>
        let v3 :=
          match r.util with
          | some u => { v2 with gpu_graph := v2.gpu_graph.push u }
          | none => v2
        match r.memory_info with
        | some mi =>
            { v3 with
              gpu_graph := v3.gpu_graph.push_vram (((mi.1 : ℚ) / (mi.2 : ℚ)) * 100) }
        | none => v3
    | none => v2
  else v2

/-- `MIN_TICK_MS` (viewer.rs line 188). -/
def MIN_TICK_MS : ℕ := 16

/-- `MAX_TICK_MS` (viewer.rs line 189). -/
def MAX_TICK_MS : ℕ := 200

/-- `TARGET_FRAME_MS` (viewer.rs line 190). -/
def TARGET_FRAME_MS : ℕ := 33

/-- The initial `tick_rate` of `show_ui` (viewer.rs line 192): 50ms. -/
def INITIAL_TICK_MS : ℕ := 50

/-- Wrapping `u64` subtraction, for `tick_rate.as_millis() as u64 - 5`. -/
def u64_sub (a b : ℕ) : ℕ :=
  (a % 18446744073709551616 + (18446744073709551616 - b % 18446744073709551616))
    % 18446744073709551616

/-- The dynamic tick-rate adjustment at the bottom of `show_ui`'s loop
(viewer.rs lines 236–248), as a function of this iteration's frame cost. -/
def adjust_tick_rate (frame_ms tick_rate : ℕ) : ℕ :=
  if frame_ms > TARGET_FRAME_MS + 10 then
    min ((tick_rate + 10) % 18446744073709551616) MAX_TICK_MS
  else if frame_ms < TARGET_FRAME_MS - 5 then
    max (u64_sub tick_rate 5) MIN_TICK_MS
  else tick_rate

/-- The tick intervals reachable by `show_ui`'s loop from the initial 50ms,
under arbitrary measured frame costs. -/
inductive ReachableTick : ℕ → Prop where
  | init : ReachableTick INITIAL_TICK_MS
  | step (t frame_ms : ℕ) : ReachableTick t → ReachableTick (adjust_tick_rate frame_ms t)

/-! ### Buffer lemmas -/

lemma rclamp_of_range (v : ℚ) (h0 : 0 ≤ v) (h1 : v ≤ 100) : rclamp v = v := by
  unfold rclamp
  rw [min_eq_left h1, max_eq_right h0]

lemma map_rclamp_of_range (l : List ℚ) (h : ∀ v ∈ l, 0 ≤ v ∧ v ≤ 100) :
    l.map rclamp = l := by
  induction l with
  | nil => rfl
  | cons a l ih =>
      have ha := h a (List.mem_cons_self a l)
      rw [List.map_cons, rclamp_of_range a ha.1 ha.2,
        ih fun v hv => h v (List.mem_cons_of_mem a hv)]

lemma getLastD_concat (l : List ℚ) (x : ℚ) : ((l ++ [x]).getLast?.getD 0) = x := by
  rw [List.getLast?_concat]
  rfl

lemma replicate_sixty (x : ℚ) :
    List.replicate HISTORY_SIZE x = List.replicate 59 x ++ [x] := by
  rw [show HISTORY_SIZE = 59 + 1 from rfl, List.replicate_succ']

lemma UsageGraph.push_of_not_initialized (g : UsageGraph) (v : ℚ)
    (h : g.initialized = false) :
    g.push v =
      { g with history := List.replicate HISTORY_SIZE (rclamp v),
               initialized := true,
               color := severity_color (f64_as_u32 (rclamp v)) } := by
  simp [UsageGraph.push, h]

lemma UsageGraph.push_of_initialized (g : UsageGraph) (v : ℚ)
    (h : g.initialized = true) :
    g.push v =
      { g with history := g.history.tail ++ [rclamp v],
               color := severity_color (f64_as_u32 (rclamp v)) } := by
  simp [UsageGraph.push, h]

lemma UsageGraph.get_current_push (g : UsageGraph) (v : ℚ) :
    (g.push v).get_current = rclamp v := by
  cases h : g.initialized
  · rw [UsageGraph.push_of_not_initialized g v h]
    unfold UsageGraph.get_current
    rw [replicate_sixty, getLastD_concat]
  · rw [UsageGraph.push_of_initialized g v h]
    unfold UsageGraph.get_current
    rw [getLastD_concat]

lemma usage_push_length (g : UsageGraph) (v : ℚ)
    (h : g.history.length = HISTORY_SIZE) :
    (g.push v).history.length = HISTORY_SIZE := by
  cases hI : g.initialized
  · rw [UsageGraph.push_of_not_initialized g v hI]
    exact List.length_replicate _ _
  · rw [UsageGraph.push_of_initialized g v hI]
    simp only [List.length_append, List.length_tail, List.length_cons,
      List.length_nil, h]
    rfl

lemma usage_foldl_length (vs : List ℚ) : ∀ (g : UsageGraph),
    g.history.length = HISTORY_SIZE →
    (vs.foldl UsageGraph.push g).history.length = HISTORY_SIZE := by
  induction vs with
  | nil => intro g h; exact h
  | cons v vs ih =>
      intro g h
      rw [List.foldl_cons]
      exact ih _ (usage_push_length g v h)

lemma CoreGraph.push_history (g : CoreGraph) (v : ℚ) :
    (g.push v).history = g.history.tail ++ [rclamp v] := rfl

lemma CoreGraph.current_push (g : CoreGraph) (v : ℚ) :
    (g.push v).current = rclamp v := by
  unfold CoreGraph.current
  rw [CoreGraph.push_history, getLastD_concat]

lemma core_push_length (g : CoreGraph) (v : ℚ)
    (h : g.history.length = HISTORY_SIZE) :
    (g.push v).history.length = HISTORY_SIZE := by
  rw [CoreGraph.push_history]
  simp only [List.length_append, List.length_tail, List.length_cons,
    List.length_nil, h]
  rfl

lemma core_foldl_length (vs : List ℚ) : ∀ (g : CoreGraph),
    g.history.length = HISTORY_SIZE →
    (vs.foldl CoreGraph.push g).history.length = HISTORY_SIZE := by
  induction vs with
  | nil => intro g h; exact h
  | cons v vs ih =>
      intro g h
      rw [List.foldl_cons]
      exact ih _ (core_push_length g v h)

lemma usage_foldl_history (vs : List ℚ) : ∀ (g : UsageGraph),
    g.initialized = true → g.history ≠ [] →
    (vs.foldl UsageGraph.push g).history =
      (g.history ++ vs.map rclamp).drop vs.length := by
  induction vs with
  | nil => intro g _ _; simp
  | cons v vs ih =>
      intro g hI hne
      rw [List.foldl_cons]
      have hI' : (g.push v).initialized = true := by
        rw [UsageGraph.push_of_initialized g v hI]
        exact hI
      have hh : (g.push v).history = g.history.tail ++ [rclamp v] := by
        rw [UsageGraph.push_of_initialized g v hI]
      have hne' : (g.push v).history ≠ [] := by
        rw [hh]; simp
      rw [ih (g.push v) hI' hne', hh]
      cases hcase : g.history with
      | nil => exact absurd hcase hne
      | cons a l =>
          simp only [hcase, List.tail_cons, List.map_cons, List.length_cons,
            List.cons_append, List.drop_succ_cons, List.append_assoc,
            List.singleton_append, List.nil_append]

lemma core_foldl_history (vs : List ℚ) : ∀ (g : CoreGraph),
    g.history ≠ [] →
    (vs.foldl CoreGraph.push g).history =
      (g.history ++ vs.map rclamp).drop vs.length := by
  induction vs with
  | nil => intro g _; simp
  | cons v vs ih =>
      intro g hne
      rw [List.foldl_cons]
      have hne' : (g.push v).history ≠ [] := by
        rw [CoreGraph.push_history]; simp
      rw [ih (g.push v) hne', CoreGraph.push_history]
      cases hcase : g.history with
      | nil => exact absurd hcase hne
      | cons a l =>
          simp only [List.tail_cons, List.map_cons, List.length_cons,
            List.cons_append, List.drop_succ_cons, List.append_assoc,
            List.singleton_append, List.nil_append]

lemma replicate_cons (x : ℚ) :
    List.replicate HISTORY_SIZE x = x :: List.replicate 59 x := by
  rw [show HISTORY_SIZE = 59 + 1 from rfl, List.replicate_succ]

/-! ### Claim theorems: history buffers -/

/-- C5: For every history buffer of capacity N (= 60) and every sequence of
k ≥ 1 pushes (here `vs ++ [v]`), the buffer's length afterwards is exactly N
and `get_current`/`current` returns the most recently pushed value clamped
to [0,100]; pushing −5 stores 0 and pushing 150 stores 100. -/
theorem buffer_length_and_current (t : String) (vs : List ℚ) (v : ℚ) :
    ((vs ++ [v]).foldl UsageGraph.push (UsageGraph.new t)).history.length
        = HISTORY_SIZE ∧
    ((vs ++ [v]).foldl UsageGraph.push (UsageGraph.new t)).get_current = rclamp v ∧
    ((vs ++ [v]).foldl CoreGraph.push (CoreGraph.new t)).history.length
        = HISTORY_SIZE ∧
    ((vs ++ [v]).foldl CoreGraph.push (CoreGraph.new t)).current = rclamp v ∧
    rclamp (-5) = 0 ∧ rclamp 150 = 100 := by
  have hU0 : (UsageGraph.new t).history.length = HISTORY_SIZE := by
    exact List.length_replicate _ _
  have hC0 : (CoreGraph.new t).history.length = HISTORY_SIZE := by
    exact List.length_replicate _ _
  refine ⟨?_, ?_, ?_, ?_, by norm_num [rclamp], by norm_num [rclamp]⟩
  · rw [List.foldl_append, List.foldl_cons, List.foldl_nil]
    exact usage_push_length _ v (usage_foldl_length vs _ hU0)
  · rw [List.foldl_append, List.foldl_cons, List.foldl_nil]
    exact UsageGraph.get_current_push _ v
  · rw [List.foldl_append, List.foldl_cons, List.foldl_nil]
    exact core_push_length _ v (core_foldl_length vs _ hC0)
  · rw [List.foldl_append, List.foldl_cons, List.foldl_nil]
    exact CoreGraph.current_push _ v

/-- C2 counterexample: `CoreGraph` does **not** seed its whole history on
the very first push — pushing 100 into a fresh `CoreGraph` leaves the
buffer different from 60 copies of the clamped value (its head is still
the sentinel 0). -/
theorem core_graph_first_push_not_seeded :
    ((CoreGraph.new "Core 0").push 100).history ≠
      List.replicate HISTORY_SIZE (rclamp 100) := by
  intro h
  have hcl : rclamp 100 = 100 := by norm_num [rclamp]
  have hL : ((CoreGraph.new "Core 0").push 100).history.head? = some 0 := by
    rw [CoreGraph.push_history]
    show ((List.replicate HISTORY_SIZE (0 : ℚ)).tail ++ [rclamp 100]).head? = some 0
    rw [replicate_cons 0, List.tail_cons,
      show (59 : ℕ) = 58 + 1 from rfl, List.replicate_succ, List.cons_append,
      List.head?_cons]
  have hR : (List.replicate HISTORY_SIZE (rclamp 100)).head? = some 100 := by
    rw [replicate_cons, List.head?_cons, hcl]
  rw [h, hR] at hL
  exact absurd (Option.some.inj hL) (by norm_num)

/-- C2 amended: before any push both buffers hold N copies of the sentinel
0.0; the very first `UsageGraph::push` of `v` seeds all N slots with the
clamped `v`, while the first `CoreGraph::push` only shifts — it leaves
N − 1 sentinel zeros followed by the clamped `v`. -/
theorem first_push_seeding (t : String) (v : ℚ) :
    (UsageGraph.new t).history = List.replicate HISTORY_SIZE 0 ∧
    (CoreGraph.new t).history = List.replicate HISTORY_SIZE 0 ∧
    ((UsageGraph.new t).push v).history = List.replicate HISTORY_SIZE (rclamp v) ∧
    ((CoreGraph.new t).push v).history =
      List.replicate (HISTORY_SIZE - 1) 0 ++ [rclamp v] := by
  refine ⟨rfl, rfl, ?_, ?_⟩
  · rw [UsageGraph.push_of_not_initialized _ v rfl]
  · rw [CoreGraph.push_history]
    show (List.replicate HISTORY_SIZE (0 : ℚ)).tail ++ [rclamp v] = _
    rw [replicate_cons 0, List.tail_cons]
    rfl

/-- C6: pushing `v1..v_{N+1}` (in range) in order from the initial state
leaves either buffer holding exactly `v2..v_{N+1}` in insertion order
(strict FIFO, oldest evicted). -/
theorem fifo_window (t : String) (vs : List ℚ)
    (hlen : vs.length = HISTORY_SIZE + 1)
    (hin : ∀ v ∈ vs, 0 ≤ v ∧ v ≤ 100) :
    (vs.foldl UsageGraph.push (UsageGraph.new t)).history = vs.drop 1 ∧
    (vs.foldl CoreGraph.push (CoreGraph.new t)).history = vs.drop 1 := by
  cases vs with
  | nil => simp at hlen
  | cons v rest =>
      have hrest : rest.length = HISTORY_SIZE := by
        simpa using hlen
      have hmap : rest.map rclamp = rest :=
        map_rclamp_of_range rest fun w hw => hin w (List.mem_cons_of_mem v hw)
      have hdrop : (v :: rest).drop 1 = rest := by
        simp
      constructor
      · rw [List.foldl_cons,
          UsageGraph.push_of_not_initialized _ v rfl]
        rw [usage_foldl_history rest _ rfl
            (by rw [replicate_cons]; simp)]
        show (List.replicate HISTORY_SIZE (rclamp v) ++ rest.map rclamp).drop
            rest.length = _
        rw [hrest, List.drop_left' (List.length_replicate _ _), hmap, hdrop]
      · rw [List.foldl_cons]
        rw [core_foldl_history rest _
            (by rw [CoreGraph.push_history]; simp)]
        rw [CoreGraph.push_history]
        show (((List.replicate HISTORY_SIZE (0 : ℚ)).tail ++ [rclamp v])
            ++ rest.map rclamp).drop rest.length = _
        rw [replicate_cons 0, List.tail_cons, hrest,
          List.drop_left'
            (show (List.replicate 59 (0 : ℚ) ++ [rclamp v]).length = HISTORY_SIZE by
              simp [HISTORY_SIZE]),
          hmap, hdrop]

/-- C6 witness: the FIFO property at the concrete constant sequence of
61 pushes of value 1. -/
theorem fifo_window_witness :
    (List.replicate 61 (1 : ℚ)).length = HISTORY_SIZE + 1 ∧
    ((List.replicate 61 (1 : ℚ)).foldl UsageGraph.push
        (UsageGraph.new "CPU")).history = (List.replicate 61 (1 : ℚ)).drop 1 ∧
    ((List.replicate 61 (1 : ℚ)).foldl CoreGraph.push
        (CoreGraph.new "Core 0")).history = (List.replicate 61 (1 : ℚ)).drop 1 := by
  have hlen : (List.replicate 61 (1 : ℚ)).length = HISTORY_SIZE + 1 := by
    simp [HISTORY_SIZE]
  have hin : ∀ v ∈ List.replicate 61 (1 : ℚ), 0 ≤ v ∧ v ≤ 100 := by
    intro v hv
    rw [List.eq_of_mem_replicate hv]
    norm_num
  exact ⟨hlen, (fifo_window "CPU" _ hlen hin).1, (fifo_window "Core 0" _ hlen hin).2⟩

/-- C10: with `total_bytes = 0` the division is guarded — the stored
percentage is 0 (never undefined) — while the used/total GB label fields
are still updated from the raw byte arguments. -/
theorem zero_total_guard (m : MemoryGraph) (g : MemoryGauge) (used_bytes : ℕ) :
    m.push used_bytes 0 =
      { graph := m.graph.push 0,
        used_gb := (used_bytes : ℚ) / 1024 / 1024 / 1024,
        total_gb := 0 } ∧
    (m.push used_bytes 0).graph.get_current = 0 ∧
    g.set_usage used_bytes 0 =
      { gauge := g.gauge.set_usage 0,
        used_gb := (used_bytes : ℚ) / 1024 / 1024 / 1024,
        total_gb := 0 } ∧
    (g.set_usage used_bytes 0).gauge.usage_percent = 0 := by
  have h1 : m.push used_bytes 0 =
      { graph := m.graph.push 0,
        used_gb := (used_bytes : ℚ) / 1024 / 1024 / 1024,
        total_gb := 0 } := by
    simp [MemoryGraph.push]
  have h2 : g.set_usage used_bytes 0 =
      { gauge := g.gauge.set_usage 0,
        used_gb := (used_bytes : ℚ) / 1024 / 1024 / 1024,
        total_gb := 0 } := by
    simp [MemoryGauge.set_usage]
  refine ⟨h1, ?_, h2, ?_⟩
  · rw [h1]
    show (m.graph.push 0).get_current = 0
    rw [UsageGraph.get_current_push]
    norm_num [rclamp]
  · rw [h2]
    show (g.gauge.set_usage 0).usage_percent = 0
    simp [UsageGauge.set_usage]
    norm_num [rclamp]

/-! ### Claim theorems: color banding -/

lemma severity_color_f64 (v : ℚ) (h0 : 0 ≤ v) (h1 : v ≤ 100) :
    severity_color (f64_as_u32 v) =
      if v < 51 then Color.green
      else if v < 76 then Color.yellow
      else Color.red := by
  have hfl : ⌊v⌋ ≤ 100 := by
    have h100 : ⌊v⌋ ≤ ⌊(100 : ℚ)⌋ := Int.floor_le_floor h1
    simpa using h100
  have hmin : f64_as_u32 v = Int.toNat ⌊v⌋ := by
    unfold f64_as_u32
    have : Int.toNat ⌊v⌋ ≤ 100 := by omega
    omega
  have h50 : (Int.toNat ⌊v⌋ ≤ 50) ↔ v < 51 := by
    rw [Int.toNat_le]
    constructor
    · intro h
      have hv : v < ((51 : ℤ) : ℚ) := Int.floor_lt.mp (by omega)
      exact_mod_cast hv
    · intro h
      have hv : ⌊v⌋ < (51 : ℤ) := Int.floor_lt.mpr (by exact_mod_cast h)
      omega
  have h75 : (Int.toNat ⌊v⌋ ≤ 75) ↔ v < 76 := by
    rw [Int.toNat_le]
    constructor
    · intro h
      have hv : v < ((76 : ℤ) : ℚ) := Int.floor_lt.mp (by omega)
      exact_mod_cast hv
    · intro h
      have hv : ⌊v⌋ < (76 : ℤ) := Int.floor_lt.mpr (by exact_mod_cast h)
      omega
  unfold severity_color
  rw [hmin]
  by_cases hv1 : v < 51
  · rw [if_pos (h50.mpr hv1), if_pos hv1]
  · rw [if_neg (fun hh => hv1 (h50.mp hh)), if_neg hv1]
    by_cases hv2 : v < 76
    · rw [if_pos (h75.mpr hv2), if_pos hv2]
    · rw [if_neg (fun hh => hv2 (h75.mp hh)), if_neg hv2]

/-- C1 counterexample: 50.1 lies in the claimed mid band (50, 75], yet
`UsageGauge::set_usage` colors it green (the code truncates with `as u32`
before matching `0..=50`), so the claimed partition is wrong. -/
theorem color_band_counterexample :
    (50 : ℚ) < 501 / 10 ∧ (501 : ℚ) / 10 ≤ 75 ∧
    ((UsageGauge.new "CPU").set_usage (501 / 10)).color = Color.green ∧
    Color.green ≠ Color.yellow := by
  refine ⟨by norm_num, by norm_num, ?_, by decide⟩
  show severity_color (f64_as_u32 (rclamp (501 / 10))) = Color.green
  have hcl : rclamp ((501 : ℚ) / 10) = 501 / 10 := by norm_num [rclamp]
  rw [hcl, severity_color_f64 _ (by norm_num) (by norm_num)]
  norm_num

/-- C1 amended: the color band is decided on the `as u32` truncation of the
clamped value, so for v ∈ [0,100] the real partition has inclusive-low
boundaries at 51 and 76: v < 51 is low (green), 51 ≤ v < 76 is mid
(yellow), v ≥ 76 is high (red) — identically in `UsageGauge::set_usage`,
`UsageGraph::push` and `CoreGraph::color`; in particular 50 and 50.0001
are low and 75 and 75.0001 are mid. -/
theorem color_band_truncated (v : ℚ) (h0 : 0 ≤ v) (h1 : v ≤ 100) :
    ((UsageGauge.new "CPU").set_usage v).color =
      (if v < 51 then Color.green
       else if v < 76 then Color.yellow
       else Color.red) ∧
    ((UsageGraph.new "CPU").push v).color =
      (if v < 51 then Color.green
       else if v < 76 then Color.yellow
       else Color.red) ∧
    ((CoreGraph.new "Core 0").push v).color =
      (if v < 51 then Color.green
       else if v < 76 then Color.yellow
       else Color.red) := by
  have hcl : rclamp v = v := rclamp_of_range v h0 h1
  refine ⟨?_, ?_, ?_⟩
  · show severity_color (f64_as_u32 (rclamp v)) = _
    rw [hcl, severity_color_f64 v h0 h1]
  · rw [UsageGraph.push_of_not_initialized _ v rfl]
    show severity_color (f64_as_u32 (rclamp v)) = _
    rw [hcl, severity_color_f64 v h0 h1]
  · unfold CoreGraph.color
    rw [CoreGraph.current_push, hcl, severity_color_f64 v h0 h1]

/-- C1 amended witness: at v = 50.1, all three band computations are green
(low), the value having been truncated to 50 before the match. -/
theorem color_band_truncated_witness :
    ((UsageGauge.new "CPU").set_usage (501 / 10)).color =
      (if (501 : ℚ) / 10 < 51 then Color.green
       else if (501 : ℚ) / 10 < 76 then Color.yellow
       else Color.red) ∧
    ((UsageGraph.new "CPU").push (501 / 10)).color =
      (if (501 : ℚ) / 10 < 51 then Color.green
       else if (501 : ℚ) / 10 < 76 then Color.yellow
       else Color.red) ∧
    ((CoreGraph.new "Core 0").push (501 / 10)).color =
      (if (501 : ℚ) / 10 < 51 then Color.green
       else if (501 : ℚ) / 10 < 76 then Color.yellow
       else Color.red) :=
  color_band_truncated (501 / 10) (by norm_num) (by norm_num)

/-! ### Claim theorems: adaptive pacing -/

lemma adjust_tick_rate_bounds (f t : ℕ) (h1 : 16 ≤ t) (h2 : t ≤ 200) :
    16 ≤ adjust_tick_rate f t ∧ adjust_tick_rate f t ≤ 200 := by
  unfold adjust_tick_rate u64_sub MIN_TICK_MS MAX_TICK_MS TARGET_FRAME_MS
  split_ifs <;> omega

lemma reachable_tick_bounds (t : ℕ) (h : ReachableTick t) : 16 ≤ t ∧ t ≤ 200 := by
  induction h with
  | init => norm_num [INITIAL_TICK_MS]
  | step t f _ ih => exact adjust_tick_rate_bounds f t ih.1 ih.2

lemma adjust_tick_rate_over (f t : ℕ) (hf : 43 < f) (h2 : t ≤ 200) :
    adjust_tick_rate f t = min (t + 10) 200 := by
  unfold adjust_tick_rate MAX_TICK_MS TARGET_FRAME_MS
  rw [if_pos (by omega)]
  omega

lemma adjust_tick_rate_under (f t : ℕ) (hf : f < 28) (h1 : 16 ≤ t) (h2 : t ≤ 200) :
    adjust_tick_rate f t = max (t - 5) 16 := by
  unfold adjust_tick_rate u64_sub MIN_TICK_MS MAX_TICK_MS TARGET_FRAME_MS
  rw [if_neg (by omega), if_pos (by omega)]
  omega

lemma adjust_iterate_over (f : ℕ) (hf : 43 < f) :
    ∀ (k t : ℕ), 16 ≤ t → t ≤ 200 →
      (adjust_tick_rate f)^[k] t = min (t + 10 * k) 200 := by
  intro k
  induction k with
  | zero =>
      intro t _ h2
      simp only [Function.iterate_zero, id_eq]
      omega
  | succ k ih =>
      intro t h1 h2
      rw [Function.iterate_succ_apply, adjust_tick_rate_over f t hf h2,
        ih (min (t + 10) 200) (by omega) (by omega)]
      omega

lemma adjust_iterate_under (f : ℕ) (hf : f < 28) :
    ∀ (k t : ℕ), 16 ≤ t → t ≤ 200 →
      (adjust_tick_rate f)^[k] t = max (t - 5 * k) 16 := by
  intro k
  induction k with
  | zero =>
      intro t h1 _
      simp only [Function.iterate_zero, id_eq]
      omega
  | succ k ih =>
      intro t h1 h2
      rw [Function.iterate_succ_apply, adjust_tick_rate_under f t hf h1 h2,
        ih (max (t - 5) 16) (by omega) (by omega)]
      omega

/-- C3: every reachable tick interval lies in [16ms, 200ms]; one loop
iteration either adds 10ms (when the frame cost strictly exceeds the
33ms target + 10ms, clamped at 200ms), subtracts 5ms (when it is strictly
below target − 5ms, clamped at 16ms), or leaves the interval unchanged;
under a frame cost held above target+10 the interval reaches and stays at
200ms (within 19 iterations), and under a cost held below target−5 it
reaches and stays at 16ms (within 37 iterations). -/
theorem pacing_invariant_and_convergence (t : ℕ) (h : ReachableTick t) :
    (MIN_TICK_MS ≤ t ∧ t ≤ MAX_TICK_MS) ∧
    (∀ f, (TARGET_FRAME_MS + 10 < f ∧
             adjust_tick_rate f t = min (t + 10) MAX_TICK_MS) ∨
          (f < TARGET_FRAME_MS - 5 ∧
             adjust_tick_rate f t = max (t - 5) MIN_TICK_MS) ∨
          (¬ TARGET_FRAME_MS + 10 < f ∧ ¬ f < TARGET_FRAME_MS - 5 ∧
             adjust_tick_rate f t = t)) ∧
    (∀ f, TARGET_FRAME_MS + 10 < f →
        (adjust_tick_rate f)^[19] t = MAX_TICK_MS ∧
        adjust_tick_rate f MAX_TICK_MS = MAX_TICK_MS) ∧
    (∀ f, f < TARGET_FRAME_MS - 5 →
        (adjust_tick_rate f)^[37] t = MIN_TICK_MS ∧
        adjust_tick_rate f MIN_TICK_MS = MIN_TICK_MS) := by
  have hb := reachable_tick_bounds t h
  refine ⟨by simpa [MIN_TICK_MS, MAX_TICK_MS] using hb, ?_, ?_, ?_⟩
  · intro f
    by_cases hf1 : TARGET_FRAME_MS + 10 < f
    · exact Or.inl ⟨hf1, by
        rw [adjust_tick_rate_over f t (by simpa [TARGET_FRAME_MS] using hf1) hb.2]
        simp [MAX_TICK_MS]⟩
    · by_cases hf2 : f < TARGET_FRAME_MS - 5
      · exact Or.inr (Or.inl ⟨hf2, by
          rw [adjust_tick_rate_under f t (by simpa [TARGET_FRAME_MS] using hf2)
            hb.1 hb.2]
          simp [MIN_TICK_MS]⟩)
      · refine Or.inr (Or.inr ⟨hf1, hf2, ?_⟩)
        unfold adjust_tick_rate
        rw [if_neg hf1, if_neg hf2]
  · intro f hf
    have hf' : 43 < f := by simpa [TARGET_FRAME_MS] using hf
    constructor
    · rw [adjust_iterate_over f hf' 19 t hb.1 hb.2]
      simp [MAX_TICK_MS]
      omega
    · rw [show adjust_tick_rate f MAX_TICK_MS
          = adjust_tick_rate f 200 from rfl,
        adjust_tick_rate_over f 200 hf' (by omega)]
      simp [MAX_TICK_MS]
  · intro f hf
    have hf' : f < 28 := by simpa [TARGET_FRAME_MS] using hf
    constructor
    · rw [adjust_iterate_under f hf' 37 t hb.1 hb.2]
      simp [MIN_TICK_MS]
      omega
    · rw [show adjust_tick_rate f MIN_TICK_MS
          = adjust_tick_rate f 16 from rfl,
        adjust_tick_rate_under f 16 hf' (by omega) (by omega)]
      simp [MIN_TICK_MS]

/-- C3 witness: from the initial 50ms interval (reachable by definition),
the bounds hold, 19 iterations at frame cost 100ms pin the interval at the
200ms ceiling, and 37 iterations at frame cost 0ms pin it at the 16ms
floor. -/
theorem pacing_witness :
    (MIN_TICK_MS ≤ INITIAL_TICK_MS ∧ INITIAL_TICK_MS ≤ MAX_TICK_MS) ∧
    (adjust_tick_rate 100)^[19] INITIAL_TICK_MS = MAX_TICK_MS ∧
    adjust_tick_rate 100 MAX_TICK_MS = MAX_TICK_MS ∧
    (adjust_tick_rate 0)^[37] INITIAL_TICK_MS = MIN_TICK_MS ∧
    adjust_tick_rate 0 MIN_TICK_MS = MIN_TICK_MS := by
  have h := pacing_invariant_and_convergence INITIAL_TICK_MS ReachableTick.init
  have hover := h.2.2.1 100 (by norm_num [TARGET_FRAME_MS])
  have hunder := h.2.2.2 0 (by norm_num [TARGET_FRAME_MS])
  exact ⟨h.1, hover.1, hover.2, hunder.1, hunder.2⟩

/-! ### Claim theorems: key routing and view switching -/

/-- C4: the active view gets first refusal on every key event; if its
handler consumes the key (returns true) no global binding runs; if not,
the global bindings run on the (possibly view-mutated) app — `q`/Esc quit,
Tab/Right next view, BackTab/Left previous view, anything else is a no-op;
and `CpuCoresView::handle_key` consumes exactly `g`/`G` by toggling its
display mode. -/
theorem route_key_first_refusal {V : Type} (hk : V → KeyCode → V × Bool)
    (app : App V) (key : KeyCode) (v : V)
    (hv : app.ticking_views.get? app.current_view = some v) :
    (∀ v2, hk v key = (v2, true) →
        App.handle_key hk app key =
          { app with ticking_views := app.ticking_views.set app.current_view v2 }) ∧
    (∀ v2, hk v key = (v2, false) →
        App.handle_key hk app key =
          App.global_key
            { app with ticking_views := app.ticking_views.set app.current_view v2 }
            key) ∧
    (∀ a : App V,
        a.global_key (KeyCode.char 'q') = { a with should_quit := true } ∧
        a.global_key KeyCode.esc = { a with should_quit := true } ∧
        a.global_key KeyCode.tab = a.next_view ∧
        a.global_key KeyCode.right = a.next_view ∧
        a.global_key KeyCode.backTab = a.prev_view ∧
        a.global_key KeyCode.left = a.prev_view ∧
        (∀ c, c ≠ 'q' → a.global_key (KeyCode.char c) = a) ∧
        a.global_key KeyCode.other = a) ∧
    (∀ (w : CpuCoresView),
        CpuCoresView.handle_key w (KeyCode.char 'g') = (w.toggle_mode, true) ∧
        CpuCoresView.handle_key w (KeyCode.char 'G') = (w.toggle_mode, true) ∧
        (∀ c, c ≠ 'g' → c ≠ 'G' →
            CpuCoresView.handle_key w (KeyCode.char c) = (w, false))) := by
  refine ⟨?_, ?_, ?_, ?_⟩
  · intro v2 hres
    unfold App.handle_key
    rw [hv]
    simp [hres]
  · intro v2 hres
    unfold App.handle_key
    rw [hv]
    simp [hres]
  · intro a
    refine ⟨?_, rfl, rfl, rfl, rfl, rfl, ?_, rfl⟩
    · show (if ('q' : Char) = 'q' then { a with should_quit := true } else a) = _
      rw [if_pos rfl]
    · intro c hc
      show (if c = 'q' then { a with should_quit := true } else a) = a
      rw [if_neg hc]
  · intro w
    refine ⟨?_, ?_, ?_⟩
    · show (if ('g' : Char) = 'g' ∨ ('g' : Char) = 'G'
          then (w.toggle_mode, true) else (w, false)) = _
      rw [if_pos (Or.inl rfl)]
    · show (if ('G' : Char) = 'g' ∨ ('G' : Char) = 'G'
          then (w.toggle_mode, true) else (w, false)) = _
      rw [if_pos (Or.inr rfl)]
    · intro c hc1 hc2
      show (if c = 'g' ∨ c = 'G' then (w.toggle_mode, true) else (w, false)) = _
      rw [if_neg (by rintro (h | h) <;> [exact hc1 h; exact hc2 h])]

/-- A concrete 1-view app around `CpuCoresView`, for the C4 witness. -/
def demo_cores_app : App CpuCoresView :=
  { current_view := 0, ticking_views := [CpuCoresView.new 4],
    should_quit := false, needs_clear := false }

/-- C4 witness: on the CPU-cores view, pressing `g` is consumed by the view
(toggling its mode) and no global binding runs. -/
theorem route_key_witness :
    App.handle_key CpuCoresView.handle_key demo_cores_app (KeyCode.char 'g') =
      { demo_cores_app with
        ticking_views :=
          demo_cores_app.ticking_views.set demo_cores_app.current_view
            (CpuCoresView.new 4).toggle_mode } := by
  have h := route_key_first_refusal CpuCoresView.handle_key demo_cores_app
      (KeyCode.char 'g') (CpuCoresView.new 4) rfl
  exact h.1 (CpuCoresView.new 4).toggle_mode ((h.2.2.2 (CpuCoresView.new 4)).1)

/-- C7: with a non-empty view sequence, `next_view` sets the index to
(i+1) mod len and `prev_view` to i−1 (wrapping 0 to len−1), both setting
the needs-clear flag; with 3 views, prev from 0 lands on 2 and next from
2 lands on 0. -/
theorem view_switching_circular {V : Type} (app : App V)
    (h : app.ticking_views ≠ []) :
    app.next_view =
      { app with
        current_view := (app.current_view + 1) % app.ticking_views.length,
        needs_clear := true } ∧
    app.prev_view =
      { app with
        current_view :=
          if app.current_view = 0 then app.ticking_views.length - 1
          else app.current_view - 1,
        needs_clear := true } ∧
    (app.ticking_views.length = 3 → app.current_view = 0 →
        app.prev_view.current_view = 2) ∧
    (app.ticking_views.length = 3 → app.current_view = 2 →
        app.next_view.current_view = 0) := by
  have hne : app.ticking_views.isEmpty = false := by
    simpa [List.isEmpty_iff] using h
  have hnext : app.next_view =
      { app with
        current_view := (app.current_view + 1) % app.ticking_views.length,
        needs_clear := true } := by
    unfold App.next_view
    rw [hne]
    rfl
  have hprev : app.prev_view =
      { app with
        current_view :=
          if app.current_view = 0 then app.ticking_views.length - 1
          else app.current_view - 1,
        needs_clear := true } := by
    unfold App.prev_view
    rw [hne]
    rfl
  refine ⟨hnext, hprev, ?_, ?_⟩
  · intro h3 h0
    rw [hprev]
    simp [h3, h0]
  · intro h3 h2
    rw [hnext]
    simp [h3, h2]

/-- A concrete 3-view app, for the C7 witness. -/
def demo_three_app : App Unit :=
  { current_view := 0, ticking_views := [(), (), ()],
    should_quit := false, needs_clear := false }

/-- C7 witness: with 3 views at index 0, prev wraps to index 2. -/
theorem view_switching_witness :
    demo_three_app.prev_view.current_view = 2 := by
  have h := view_switching_circular demo_three_app (by simp [demo_three_app])
  exact h.2.2.1 rfl rfl

/-- C9: on an empty view sequence every `App` operation is total and
harmless — `next_view`/`prev_view` return the app unchanged, nothing is
drawn, `on_tick` does nothing, and `handle_key` skips view dispatch and
applies exactly the global bindings. -/
theorem empty_registry_total {V : Type} (hk : V → KeyCode → V × Bool)
    (tick : V → V) (key : KeyCode) (app : App V)
    (h : app.ticking_views = []) :
    app.next_view = app ∧
    app.prev_view = app ∧
    app.draw = none ∧
    App.on_tick tick app = app ∧
    App.handle_key hk app key = app.global_key key := by
  have hE : app.ticking_views.isEmpty = true := by
    rw [h]
    rfl
  have hg : app.ticking_views.get? app.current_view = none := by
    rw [h]
    exact List.get?_nil
  refine ⟨?_, ?_, ?_, ?_, ?_⟩
  · unfold App.next_view
    rw [hE]
    rfl
  · unfold App.prev_view
    rw [hE]
    rfl
  · unfold App.draw
    rw [hg]
  · unfold App.on_tick
    rw [hg]
  · unfold App.handle_key
    rw [hg]

/-- An app with no registered views, for the C9 witness. -/
def demo_empty_app : App Unit :=
  { current_view := 0, ticking_views := [],
    should_quit := false, needs_clear := false }

/-- C9 witness: on the concrete empty app, next_view is the identity and a
Tab key falls through to the global bindings. -/
theorem empty_registry_witness :
    demo_empty_app.next_view = demo_empty_app ∧
    App.handle_key (fun v _ => (v, false)) demo_empty_app KeyCode.tab =
      demo_empty_app.global_key KeyCode.tab := by
  have h := empty_registry_total (fun v _ => (v, false)) id KeyCode.tab
      demo_empty_app rfl
  exact ⟨h.1, h.2.2.2.2⟩

/-- C8: with no GPU capability (NVML init failed, the device query failed,
or both per-device queries failed), a refresh leaves both GPU history
buffers untouched while CPU and memory are still pushed on the same tick. -/
theorem gpu_absent_degrades (v : SystemMonitorView) (cpu : ℚ)
    (used total : ℕ) (device : Option GpuReadings)
    (h : v.nvml = false ∨ device = none ∨
         device = some { util := none, memory_info := none }) :
    (v.refresh cpu used total device).gpu_graph = v.gpu_graph ∧
    (v.refresh cpu used total device).cpu_graph = v.cpu_graph.push cpu ∧
    (v.refresh cpu used total device).memory_graph = v.memory_graph.push used total := by
  rcases h with h | h | h
  · unfold SystemMonitorView.refresh
    simp [h]
  · subst h
    unfold SystemMonitorView.refresh
    cases hn : v.nvml <;> simp
  · subst h
    unfold SystemMonitorView.refresh
    cases hn : v.nvml <;> simp

/-- C8 witness: on a host where NVML init failed, a concrete refresh keeps
the GPU graphs and pushes CPU and memory. -/
theorem gpu_absent_witness :
    ((SystemMonitorView.new false).refresh 10 100 200 none).gpu_graph =
      (SystemMonitorView.new false).gpu_graph ∧
    ((SystemMonitorView.new false).refresh 10 100 200 none).cpu_graph =
      (SystemMonitorView.new false).cpu_graph.push 10 ∧
    ((SystemMonitorView.new false).refresh 10 100 200 none).memory_graph =
      (SystemMonitorView.new false).memory_graph.push 100 200 :=
  gpu_absent_degrades (SystemMonitorView.new false) 10 100 200 none (Or.inl rfl)

end LVrcConsole
